import Mathlib

/-!
Verification development for the BioSeg figure editor.

The frontend of the repository (React/TypeScript) is embedded shallowly:
`frontend/src/types.ts` gives the data model, `hooks/useHistory.ts` the
undo/redo stack, `components/Canvas.tsx` the pointer handlers, and
`App.tsx` the ROI / overlap-split request handlers.  The Python backend
(coordinate transforms, restoration pipeline, result cache) is not part
of the source tree; those components are modelled from the written
specification, as marked in their doc comments.

JavaScript numbers are modelled as `ℚ` (the arithmetic performed by the
embedded code is exact in every reachable case), pixel buffers as
functions out of coordinates, and fallible async steps as `Except`.
-/

/-- Record `Layer` from `frontend/src/types.ts`. -/
structure Layer where
  id : String
  asset_id : String
  asset_url : String
  name : Option String := none
  mask_asset_id : Option String := none
  edge_cleanup_enabled : Option Bool := none
  edge_cleanup_strength : Option ℚ := none
  edge_cleanup_feather_px : Option ℚ := none
  edge_cleanup_erode_px : Option ℚ := none
  x : ℚ
  y : ℚ
  scale_x : ℚ
  scale_y : ℚ
  rotation_deg : ℚ
  opacity : ℚ
  visible : Bool
  locked : Bool
  z_index : ℚ
deriving DecidableEq, Repr

/-- Record `ImageInfo` from `frontend/src/types.ts`. -/
structure ImageInfo where
  image_id : String
  width : ℚ
  height : ℚ
  url : String
deriving DecidableEq, Repr

/-! ## useHistory (`frontend/src/hooks/useHistory.ts`)

The hook keeps three pieces of React state: the current `layers` array,
the `history` array of snapshots, and `historyIndex`. -/

/-- The state triple held by the `useHistory` hook. -/
structure HistState where
  layers : List Layer
  history : List (List Layer)
  historyIndex : ℕ
deriving DecidableEq, Repr

/-- Initial hook state: `useState(initialLayers)`, `useState([initialLayers])`,
`useState(0)`. -/
def initHist (initialLayers : List Layer) : HistState :=
  ⟨initialLayers, [initialLayers], 0⟩

/-- Operation `updateLayers`: truncate the history after the current index, push the
new snapshot, drop the oldest snapshot when the stack exceeds 50. -/
def HistState.updateLayers (st : HistState) (newLayers : List Layer) : HistState :=
  let newHistory := st.history.take (st.historyIndex + 1) ++ [newLayers]
  let newHistory := if newHistory.length > 50 then newHistory.tail else newHistory
  ⟨newLayers, newHistory, newHistory.length - 1⟩

/-- Operation `undo`: step back one snapshot when `historyIndex > 0`. -/
def HistState.undo (st : HistState) : HistState :=
  if 0 < st.historyIndex then
    ⟨st.history.getD (st.historyIndex - 1) [], st.history, st.historyIndex - 1⟩
  else st

/-- Operation `redo`: step forward one snapshot when `historyIndex < history.length - 1`. -/
def HistState.redo (st : HistState) : HistState :=
  if st.historyIndex + 1 < st.history.length then
    ⟨st.history.getD (st.historyIndex + 1) [], st.history, st.historyIndex + 1⟩
  else st

/-- The raw `setLayers` setter the hook also returns (used by `App.tsx`
to clear the canvas after an upload); it bypasses the history. -/
def HistState.setLayers (st : HistState) (newLayers : List Layer) : HistState :=
  ⟨newLayers, st.history, st.historyIndex⟩

/-- Flag `canUndo`: `historyIndex > 0`. -/
def HistState.canUndo (st : HistState) : Bool := 0 < st.historyIndex

/-- Flag `canRedo`: `historyIndex < history.length - 1`. -/
def HistState.canRedo (st : HistState) : Bool := st.historyIndex + 1 < st.history.length

/-- One call to an operation returned by the hook. -/
inductive HistOp where
  | update (newLayers : List Layer)
  | undo
  | redo
  | set (newLayers : List Layer)
deriving DecidableEq, Repr

def HistState.apply (st : HistState) : HistOp → HistState
  | .update l => st.updateLayers l
  | .undo => st.undo
  | .redo => st.redo
  | .set l => st.setLayers l

/-- The hook state after a sequence of operation calls starting from
`useHistory(initialLayers)`. -/
def runOps (initialLayers : List Layer) (ops : List HistOp) : HistState :=
  ops.foldl HistState.apply (initHist initialLayers)

/-- Boundedness invariant of the history stack. -/
def HistState.Bounded (st : HistState) : Prop :=
  st.history.length ≤ 50 ∧ st.historyIndex < st.history.length

theorem histBounded_init (initialLayers : List Layer) :
    (initHist initialLayers).Bounded := by
  constructor <;> simp [initHist]

theorem histBounded_apply (st : HistState) (op : HistOp) (h : st.Bounded) :
    (st.apply op).Bounded := by
  obtain ⟨h50, hidx⟩ := h
  cases op with
  | update l =>
      have hlen : (st.history.take (st.historyIndex + 1) ++ [l]).length
          = st.historyIndex + 2 := by
        simp [List.length_take]
        omega
      simp only [HistState.apply, HistState.updateLayers]
      by_cases hgt : (st.history.take (st.historyIndex + 1) ++ [l]).length > 50
      · rw [if_pos hgt]
        rw [hlen] at hgt
        constructor
        · show ((st.history.take (st.historyIndex + 1) ++ [l]).tail).length ≤ 50
          rw [List.length_tail, hlen]
          omega
        · show ((st.history.take (st.historyIndex + 1) ++ [l]).tail).length - 1
            < ((st.history.take (st.historyIndex + 1) ++ [l]).tail).length
          rw [List.length_tail, hlen]
          omega
      · rw [if_neg hgt]
        rw [hlen] at hgt
        constructor
        · show (st.history.take (st.historyIndex + 1) ++ [l]).length ≤ 50
          rw [hlen]
          omega
        · show (st.history.take (st.historyIndex + 1) ++ [l]).length - 1
            < (st.history.take (st.historyIndex + 1) ++ [l]).length
          rw [hlen]
          omega
  | undo =>
      simp only [HistState.apply, HistState.undo]
      by_cases hpos : 0 < st.historyIndex
      · rw [if_pos hpos]
        refine ⟨h50, ?_⟩
        show st.historyIndex - 1 < st.history.length
        omega
      · rw [if_neg hpos]
        exact ⟨h50, hidx⟩
  | redo =>
      simp only [HistState.apply, HistState.redo]
      by_cases hlt : st.historyIndex + 1 < st.history.length
      · rw [if_pos hlt]
        refine ⟨h50, ?_⟩
        show st.historyIndex + 1 < st.history.length
        omega
      · rw [if_neg hlt]
        exact ⟨h50, hidx⟩
  | set l =>
      exact ⟨h50, hidx⟩

theorem histBounded_run (initialLayers : List Layer) (ops : List HistOp) :
    (runOps initialLayers ops).Bounded := by
  suffices h : ∀ st : HistState, st.Bounded → (ops.foldl HistState.apply st).Bounded by
    exact h _ (histBounded_init initialLayers)
  induction ops with
  | nil => intro st h; exact h
  | cons op rest ih =>
      intro st h
      exact ih _ (histBounded_apply st op h)

/-- C8: the undo history is a bounded stack: after any sequence of
`updateLayers`/`undo`/`redo` (and raw `setLayers`) calls starting from
`useHistory(initialLayers)`, `history.length ≤ 50` and
`0 ≤ historyIndex < history.length` hold. -/
theorem useHistory_bounded_stack (initialLayers : List Layer) (ops : List HistOp) :
    (runOps initialLayers ops).history.length ≤ 50 ∧
      (runOps initialLayers ops).historyIndex < (runOps initialLayers ops).history.length :=
  histBounded_run initialLayers ops

/-- A concrete layer used in counterexamples and witnesses. -/
def mkLayer (i : String) (z : ℚ) (vis : Bool) : Layer :=
  { id := i, asset_id := i, asset_url := i,
    x := 0, y := 0, scale_x := 1, scale_y := 1, rotation_deg := 0,
    opacity := 1, visible := vis, locked := false, z_index := z }

/-- A hook state reachable through the own API of the hook: `useHistory([])`,
then `updateLayers([a])`, then the raw `setLayers([b])` (exactly the
pattern `App.tsx` uses when it calls `setLayers([])` after an upload
without resetting the history). -/
def histCexState : HistState :=
  runOps [] [HistOp.update [mkLayer "a" 1 true], HistOp.set [mkLayer "b" 1 true]]

/-- C9, counterexample: in the reachable state `histCexState`, `canUndo`
holds, yet `undo` followed by `redo` does not restore the layers (it
yields `[a]`, the snapshot at the current index, while the layers of
the state were `[b]`).  The claim as stated is false because the hook also
exposes the raw `setLayers` setter, which changes `layers` without
recording a snapshot. -/
theorem undo_redo_cex :
    histCexState.canUndo = true ∧
      ¬ (histCexState.undo.redo.layers = histCexState.layers ∧
          histCexState.undo.redo.historyIndex = histCexState.historyIndex) := by
  constructor
  · rfl
  · intro hcontra
    have hl : histCexState.undo.redo.layers = [mkLayer "a" 1 true] := rfl
    have hr : histCexState.layers = [mkLayer "b" 1 true] := rfl
    rw [hl, hr] at hcontra
    have := hcontra.1
    simp [mkLayer] at this

/-- C9, amended: in every hook state whose layers agree with the snapshot
at the current index (true of every state produced by `updateLayers`,
`undo` and `redo` alone, though breakable through the raw `setLayers`
setter) and whose index is in range, `undo` followed by `redo` restores
the whole state whenever `canUndo` holds, and `redo` followed by `undo`
restores it whenever `canRedo` holds. -/
theorem undo_redo_roundtrip (st : HistState)
    (hsync : st.layers = st.history.getD st.historyIndex [])
    (hidx : st.historyIndex < st.history.length) :
    (st.canUndo = true → st.undo.redo = st) ∧
      (st.canRedo = true → st.redo.undo = st) := by
  constructor
  · intro hcu
    have hpos : 0 < st.historyIndex := by
      simpa [HistState.canUndo] using hcu
    have hundo : st.undo =
        ⟨st.history.getD (st.historyIndex - 1) [], st.history, st.historyIndex - 1⟩ := by
      rw [HistState.undo, if_pos hpos]
    rw [hundo, HistState.redo]
    have hlt : st.historyIndex - 1 + 1 < st.history.length := by omega
    rw [if_pos hlt]
    have hix : st.historyIndex - 1 + 1 = st.historyIndex := by omega
    cases st with
    | mk layers history historyIndex =>
        simp only at hix hsync ⊢
        rw [hix, ← hsync]
  · intro hcr
    have hlt : st.historyIndex + 1 < st.history.length := by
      simpa [HistState.canRedo] using hcr
    have hredo : st.redo =
        ⟨st.history.getD (st.historyIndex + 1) [], st.history, st.historyIndex + 1⟩ := by
      rw [HistState.redo, if_pos hlt]
    rw [hredo, HistState.undo]
    have hpos : (0 : ℕ) < st.historyIndex + 1 := by omega
    rw [if_pos hpos]
    cases st with
    | mk layers history historyIndex =>
        simp only at hsync ⊢
        rw [Nat.add_sub_cancel, ← hsync]

/-- C9, witness: the state after `useHistory([])` followed by
`updateLayers([a])` satisfies the hypotheses of the amended theorem, and
there `undo` then `redo` restores the state. -/
theorem undo_redo_roundtrip_witness :
    (runOps [] [HistOp.update [mkLayer "a" 1 true]]).undo.redo
      = runOps [] [HistOp.update [mkLayer "a" 1 true]] :=
  (undo_redo_roundtrip (runOps [] [HistOp.update [mkLayer "a" 1 true]])
    rfl (by decide)).1 rfl

/-! ## Canvas pointer handlers (`frontend/src/components/Canvas.tsx`) -/

/-- The editor tools (`Tool` union in `frontend/src/types.ts`). -/
inductive Tool where
  | select
  | pan
  | zoom
  | segment
  | text
  | box
  | roi
  | overlap
  | decompose
deriving DecidableEq, Repr

/-- ROI drawing mode (rect or poly). -/
inductive RoiMode where
  | rect
  | poly
deriving DecidableEq, Repr

/-- A 2-d point with JavaScript-number coordinates. -/
structure Pt where
  x : ℚ
  y : ℚ
deriving DecidableEq, Repr

/-- The Konva stage view transform read by the handlers:
`stage.x()`, `stage.y()`, `stage.scaleX()`, `stage.scaleY()`. -/
structure StageView where
  x : ℚ
  y : ℚ
  scaleX : ℚ
  scaleY : ℚ
deriving DecidableEq, Repr

/-- Handler `handleStageClick`, segment branch: convert the pointer to image
coordinates by `(pointer - stage.pos) / stage.scale`, and call
`onSegment(x, y)` only when `x ≥ 0 && y ≥ 0 && x ≤ width && y ≤ height`.
Returns the point passed to `onSegment`, or `none` when no segmentation
request is made. -/
def segmentClickPoint (activeTool : Tool) (baseImage : Option ImageInfo)
    (stage : StageView) (pointer : Pt) : Option Pt :=
  match baseImage with
  | none => none
  | some img =>
    if activeTool = Tool.segment then
      let x := (pointer.x - stage.x) / stage.scaleX
      let y := (pointer.y - stage.y) / stage.scaleY
      if 0 ≤ x ∧ 0 ≤ y ∧ x ≤ img.width ∧ y ≤ img.height then some ⟨x, y⟩ else none
    else none

/-- C5: every point prompt a segment-tool click submits via `onSegment`
lies inside the base image bounds (`0 ≤ x ≤ width`, `0 ≤ y ≤ height`),
and a click whose image-space coordinates fall outside these bounds
produces no segmentation request. -/
theorem segment_click_in_bounds (activeTool : Tool) (img : ImageInfo)
    (stage : StageView) (pointer : Pt) :
    (∀ p : Pt,
      segmentClickPoint activeTool (some img) stage pointer = some p →
        0 ≤ p.x ∧ p.x ≤ img.width ∧ 0 ≤ p.y ∧ p.y ≤ img.height) ∧
    (¬ (0 ≤ (pointer.x - stage.x) / stage.scaleX ∧
          0 ≤ (pointer.y - stage.y) / stage.scaleY ∧
          (pointer.x - stage.x) / stage.scaleX ≤ img.width ∧
          (pointer.y - stage.y) / stage.scaleY ≤ img.height) →
        segmentClickPoint activeTool (some img) stage pointer = none) := by
  constructor
  · intro p hp
    simp only [segmentClickPoint] at hp
    by_cases htool : activeTool = Tool.segment
    · rw [if_pos htool] at hp
      by_cases hb : 0 ≤ (pointer.x - stage.x) / stage.scaleX ∧
          0 ≤ (pointer.y - stage.y) / stage.scaleY ∧
          (pointer.x - stage.x) / stage.scaleX ≤ img.width ∧
          (pointer.y - stage.y) / stage.scaleY ≤ img.height
      · rw [if_pos hb] at hp
        obtain ⟨hx0, hy0, hxw, hyh⟩ := hb
        cases hp
        exact ⟨hx0, hxw, hy0, hyh⟩
      · rw [if_neg hb] at hp
        cases hp
    · rw [if_neg htool] at hp
      cases hp
  · intro hb
    simp only [segmentClickPoint]
    by_cases htool : activeTool = Tool.segment
    · rw [if_pos htool, if_neg hb]
    · rw [if_neg htool]

/-- C5, witness: a segment-tool click at stage pointer (150, 80) with
the identity view on a 100×50 image maps to image point (150, 80),
which is out of bounds, so no request is emitted; a click at (30, 20)
is submitted and lies inside the bounds. -/
theorem segment_click_in_bounds_witness :
    segmentClickPoint Tool.segment
        (some ⟨"img", 100, 50, "u"⟩) ⟨0, 0, 1, 1⟩ ⟨150, 80⟩ = none ∧
      (0 ≤ (30 : ℚ) ∧ (30 : ℚ) ≤ 100 ∧ 0 ≤ (20 : ℚ) ∧ (20 : ℚ) ≤ 50) := by
  constructor
  · exact (segment_click_in_bounds Tool.segment ⟨"img", 100, 50, "u"⟩
      ⟨0, 0, 1, 1⟩ ⟨150, 80⟩).2 (by norm_num)
  · have h := (segment_click_in_bounds Tool.segment ⟨"img", 100, 50, "u"⟩
      ⟨0, 0, 1, 1⟩ ⟨30, 20⟩).1 ⟨30, 20⟩ (by norm_num [segmentClickPoint])
    simpa using h

/-- Which callback a completed drag feeds (`handleMouseUp` branches). -/
inductive BoxTarget where
  | segmentBoxPrompt
  | roiBoxChange
  | overlapBoxChange
  | decomposeBoxChange
deriving DecidableEq, Repr

/-- Handler `handleMouseUp`: when a box-drawing tool is active, a drag is in
progress with both corners recorded and a base image is loaded, the
corners are normalized with `min`/`max` and the box `[x1,y1,x2,y2]` is
emitted only when `x2 - x1 > 5 && y2 - y1 > 5`.  Returns the emitted
box and the callback it goes to, or `none`. -/
def handleMouseUpBox (activeTool : Tool) (roiMode : RoiMode) (isDrawingBox : Bool)
    (boxStart boxEnd : Option Pt) (baseImage : Option ImageInfo) :
    Option ((ℚ × ℚ × ℚ × ℚ) × BoxTarget) :=
  let toolActive :=
    activeTool = Tool.box ∨ (activeTool = Tool.roi ∧ roiMode = RoiMode.rect) ∨
      (activeTool = Tool.overlap ∧ roiMode = RoiMode.rect) ∨ activeTool = Tool.decompose
  if toolActive then
    match isDrawingBox, boxStart, boxEnd, baseImage with
    | true, some s, some e, some _ =>
      let x1 := min s.x e.x
      let y1 := min s.y e.y
      let x2 := max s.x e.x
      let y2 := max s.y e.y
      if 5 < x2 - x1 ∧ 5 < y2 - y1 then
        if activeTool = Tool.box then some ((x1, y1, x2, y2), BoxTarget.segmentBoxPrompt)
        else if activeTool = Tool.roi then some ((x1, y1, x2, y2), BoxTarget.roiBoxChange)
        else if activeTool = Tool.overlap then
          some ((x1, y1, x2, y2), BoxTarget.overlapBoxChange)
        else some ((x1, y1, x2, y2), BoxTarget.decomposeBoxChange)
      else none
    | _, _, _, _ => none
  else none

/-- C6: every box a completed drag emits — to the box-prompt `onSegment`
path or to the ROI/overlap/decompose box callbacks — satisfies
`x1 < x2` and `y1 < y2`, regardless of drag direction, because the
handler normalizes the corners with `min`/`max` and only emits when
`x2 - x1 > 5` and `y2 - y1 > 5`. -/
theorem mouse_up_box_normalized (activeTool : Tool) (roiMode : RoiMode)
    (isDrawingBox : Bool) (boxStart boxEnd : Option Pt) (baseImage : Option ImageInfo)
    (b : (ℚ × ℚ × ℚ × ℚ) × BoxTarget)
    (hemit : handleMouseUpBox activeTool roiMode isDrawingBox boxStart boxEnd baseImage
      = some b) :
    b.1.1 < b.1.2.2.1 ∧ b.1.2.1 < b.1.2.2.2 := by
  by_cases htool : activeTool = Tool.box ∨ (activeTool = Tool.roi ∧ roiMode = RoiMode.rect) ∨
      (activeTool = Tool.overlap ∧ roiMode = RoiMode.rect) ∨ activeTool = Tool.decompose
  · cases hdraw : isDrawingBox <;> subst hdraw <;>
      cases boxStart <;> cases boxEnd <;> cases baseImage <;>
      simp only [handleMouseUpBox, if_pos htool] at hemit <;>
      try cases hemit
    rename_i s e img
    split at hemit
    · rename_i hsz
      obtain ⟨hx, hy⟩ := hsz
      have hxlt : min s.x e.x < max s.x e.x := by
        have := min_le_max (a := s.x) (b := e.x)
        linarith
      have hylt : min s.y e.y < max s.y e.y := by
        have := min_le_max (a := s.y) (b := e.y)
        linarith
      split at hemit
      · cases hemit; exact ⟨hxlt, hylt⟩
      · split at hemit
        · cases hemit; exact ⟨hxlt, hylt⟩
        · split at hemit
          · cases hemit; exact ⟨hxlt, hylt⟩
          · cases hemit; exact ⟨hxlt, hylt⟩
    · cases hemit
  · have hres : handleMouseUpBox activeTool roiMode isDrawingBox boxStart boxEnd baseImage
        = none := by
      simp only [handleMouseUpBox]
      rw [if_neg htool]
    rw [hres] at hemit
    cases hemit

/-- C6, witness: a drag from (10, 40) to (2, 8) — bottom-right to
top-left — with the box tool emits the normalized box (2, 8, 10, 40),
whose corners satisfy `x1 < x2` and `y1 < y2`. -/
theorem mouse_up_box_normalized_witness :
    (((2 : ℚ), (8 : ℚ), (10 : ℚ), (40 : ℚ)), BoxTarget.segmentBoxPrompt).1.1
        < (((2 : ℚ), (8 : ℚ), (10 : ℚ), (40 : ℚ)), BoxTarget.segmentBoxPrompt).1.2.2.1 ∧
      (((2 : ℚ), (8 : ℚ), (10 : ℚ), (40 : ℚ)), BoxTarget.segmentBoxPrompt).1.2.1
        < (((2 : ℚ), (8 : ℚ), (10 : ℚ), (40 : ℚ)), BoxTarget.segmentBoxPrompt).1.2.2.2 :=
  mouse_up_box_normalized Tool.box RoiMode.rect true (some ⟨10, 40⟩) (some ⟨2, 8⟩)
    (some ⟨"img", 100, 50, "u"⟩) _ (by
      simp +decide [handleMouseUpBox, min_def, max_def]
      norm_num)

/-! ## Layer ordering (`Canvas.tsx` line 143 and `LayerList.tsx` line 24)

Both components sort a copy of the `layers` array with
`Array.prototype.sort`, which the JS spec requires to be stable; this is
modelled by `List.insertionSort`, which is stable for the corresponding
non-strict comparator. -/

/-- Comparator of `Canvas.tsx`: `(a, b) => a.z_index - b.z_index`
(ascending). -/
def zLE (a b : Layer) : Prop := a.z_index ≤ b.z_index

/-- Comparator of `LayerList.tsx`: `(a, b) => b.z_index - a.z_index`
(descending). -/
def zGE (a b : Layer) : Prop := b.z_index ≤ a.z_index

/-- Strictly greater `z_index`, used to compare the two orders. -/
def zGT (a b : Layer) : Prop := b.z_index < a.z_index

instance : DecidableRel zLE := fun a b =>
  inferInstanceAs (Decidable (a.z_index ≤ b.z_index))

instance : DecidableRel zGE := fun a b =>
  inferInstanceAs (Decidable (b.z_index ≤ a.z_index))

instance : IsTotal Layer zLE := ⟨fun a b => le_total a.z_index b.z_index⟩

instance : IsTrans Layer zLE := ⟨fun _ _ _ h1 h2 => le_trans h1 h2⟩

instance : IsTotal Layer zGE := ⟨fun a b => le_total b.z_index a.z_index⟩

instance : IsTrans Layer zGE := ⟨fun _ _ _ h1 h2 => le_trans h2 h1⟩

instance : IsAntisymm Layer zGT :=
  ⟨fun _ _ h1 h2 => absurd (lt_trans h1 h2) (lt_irrefl _)⟩

/-- Sort in `Canvas.tsx`: `const sortedLayers = [...layers].sort((a, b) => a.z_index - b.z_index)`. -/
def canvasSortedLayers (layers : List Layer) : List Layer :=
  List.insertionSort zLE layers

/-- The sequence of layers `Canvas.tsx` actually draws: the ascending
sort with `visible=false` layers skipped (`if (!layer.visible) return null`). -/
def canvasRenderLayers (layers : List Layer) : List Layer :=
  (canvasSortedLayers layers).filter (fun l => l.visible)

/-- Sort in `LayerList.tsx`: `const sortedLayers = [...layers].sort((a, b) => b.z_index - a.z_index)`. -/
def layerListSortedLayers (layers : List Layer) : List Layer :=
  List.insertionSort zGE layers

/-- Two concrete layers with equal `z_index`. -/
def tiedLayers : List Layer := [mkLayer "a" 1 true, mkLayer "b" 1 true]

/-- C10, counterexample: with two layers of equal `z_index` (reachable,
e.g. after a deletion renumbering gap), both stable sorts keep the
original relative order, so the `LayerList` order is NOT the reverse of
the `Canvas` order. -/
theorem canvas_layerlist_reverse_cex :
    layerListSortedLayers tiedLayers ≠ (canvasSortedLayers tiedLayers).reverse := by
  decide

/-- Helper: combine two pairwise facts pointwise. -/
theorem pairwiseAnd {α : Type} {R S : α → α → Prop} :
    ∀ {l : List α}, l.Pairwise R → l.Pairwise S → l.Pairwise fun a b => R a b ∧ S a b := by
  intro l h1 h2
  induction l with
  | nil => exact List.Pairwise.nil
  | cons a t ih =>
      cases h1 with
      | cons ha1 ht1 =>
          cases h2 with
          | cons ha2 ht2 =>
              exact List.Pairwise.cons (fun b hb => ⟨ha1 b hb, ha2 b hb⟩) (ih ht1 ht2)

/-- C10: for EVERY input layers array, `Canvas.tsx` draws layers in
ascending `z_index` order with invisible layers skipped, `LayerList.tsx`
shows them in descending `z_index` order, and both orders are
permutations of the input array; and whenever the `z_index` values are
pairwise distinct, the two orders are additionally exact reverses of
each other.  (Without distinctness the reverse relation fails, see the
counterexample: both stable sorts keep tied layers in input order.) -/
theorem canvas_layerlist_orders (layers : List Layer) :
    (canvasSortedLayers layers).Perm layers ∧
      (layerListSortedLayers layers).Perm layers ∧
      (canvasSortedLayers layers).Sorted zLE ∧
      (layerListSortedLayers layers).Sorted zGE ∧
      (∀ l ∈ canvasRenderLayers layers, l.visible = true) ∧
      (canvasRenderLayers layers).Sorted zLE ∧
      ((layers.Pairwise fun a b => a.z_index ≠ b.z_index) →
        layerListSortedLayers layers = (canvasSortedLayers layers).reverse) := by
  have hperm1 : (canvasSortedLayers layers).Perm layers :=
    List.perm_insertionSort zLE layers
  have hperm2 : (layerListSortedLayers layers).Perm layers :=
    List.perm_insertionSort zGE layers
  have hs1 : (canvasSortedLayers layers).Sorted zLE :=
    List.sorted_insertionSort zLE layers
  have hs2 : (layerListSortedLayers layers).Sorted zGE :=
    List.sorted_insertionSort zGE layers
  refine ⟨hperm1, hperm2, hs1, hs2, ?_, ?_, ?_⟩
  · intro l hl
    have := List.of_mem_filter hl
    simpa using this
  · exact hs1.sublist (List.filter_sublist (canvasSortedLayers layers))
  · intro hdist
    have hsymm : ∀ {a b : Layer}, a.z_index ≠ b.z_index → b.z_index ≠ a.z_index :=
      fun h => h.symm
    have hdist1 : (canvasSortedLayers layers).Pairwise fun a b => a.z_index ≠ b.z_index :=
      (hperm1.pairwise_iff fun hab => hsymm hab).mpr hdist
    have hdist2 : (layerListSortedLayers layers).Pairwise fun a b => a.z_index ≠ b.z_index :=
      (hperm2.pairwise_iff fun hab => hsymm hab).mpr hdist
    have hstrict1 : (canvasSortedLayers layers).Pairwise fun a b => a.z_index < b.z_index :=
      (pairwiseAnd hs1 hdist1).imp fun h => lt_of_le_of_ne h.1 h.2
    have hstrict2 : (layerListSortedLayers layers).Pairwise zGT :=
      (pairwiseAnd hs2 hdist2).imp fun h => lt_of_le_of_ne h.1 fun q => h.2 q.symm
    have hrevsorted : ((canvasSortedLayers layers).reverse).Pairwise zGT :=
      List.pairwise_reverse.mpr hstrict1
    have hpermrev : (layerListSortedLayers layers).Perm
        ((canvasSortedLayers layers).reverse) :=
      (hperm2.trans hperm1.symm).trans (canvasSortedLayers layers).reverse_perm.symm
    exact List.eq_of_perm_of_sorted hpermrev hstrict2 hrevsorted

/-- C10, witness: on two concrete layers with distinct `z_index`
(one of them invisible), the sorts are permutations, ordered as stated,
and the `LayerList` order is the reverse of the `Canvas` order. -/
theorem canvas_layerlist_orders_witness :
    (canvasSortedLayers [mkLayer "a" 2 true, mkLayer "b" 1 false]).Perm
        [mkLayer "a" 2 true, mkLayer "b" 1 false] ∧
      layerListSortedLayers [mkLayer "a" 2 true, mkLayer "b" 1 false]
        = (canvasSortedLayers [mkLayer "a" 2 true, mkLayer "b" 1 false]).reverse := by
  have h := canvas_layerlist_orders [mkLayer "a" 2 true, mkLayer "b" 1 false]
  exact ⟨h.1, h.2.2.2.2.2.2 (by decide)⟩

/-! ## App request handlers (`App.tsx`)

`handleRoiSplit` and `handleOverlapSplit` rasterize the drawn masks,
upload them, call the backend, and append the returned layers.  The
awaited steps are modelled as functions into `Except`, collected in an
environment record; an opaque `Blob` is a natural number. -/

/-- One layer entry of a `RoiSplitResponse`/`OverlapSplitResponse`
(`l.rgba_asset_id`, `l.rgba_url`, `l.layer_name`, `l.bbox`). -/
structure SplitLayerOut where
  rgba_asset_id : String
  rgba_url : String
  layer_name : String
  bbox : ℚ × ℚ × ℚ × ℚ
deriving DecidableEq, Repr

/-- Backend response carrying the produced layers. -/
structure SplitResponse where
  layers : List SplitLayerOut
deriving DecidableEq, Repr

/-- Numeric parameter object (`steps`, `guidance_scale`, `strength`,
optional `seed` and `resize_long_edge`). -/
structure RParams where
  steps : ℚ
  guidance_scale : ℚ
  strength : ℚ
  seed : Option ℚ := none
  resize_long_edge : Option ℚ := none
deriving DecidableEq, Repr

/-- The `roi_split` request body assembled by `handleRoiSplit`. -/
structure RoiSplitReq where
  base_image_id : String
  roi_mask_asset_id : String
  engine : String
  steps : ℚ
  guidance_scale : ℚ
  seed : Option ℚ
  resize_long_edge : Option ℚ
  prompt : Option String
  fg_point : Option (ℚ × ℚ × ℚ)
  bg_point : Option (ℚ × ℚ × ℚ)
deriving DecidableEq, Repr

/-- The `overlap_split` request body assembled by `handleOverlapSplit`. -/
structure OverlapSplitReq where
  base_image_id : String
  mask_a_asset_id : String
  mask_b_asset_id : String
  prompt_a : String
  prompt_b : String
  engine : String
  steps : ℚ
  guidance_scale : ℚ
  strength : ℚ
deriving DecidableEq, Repr

/-- An overlap mask as held in App state: an optional rect box plus
polygon points. -/
structure OverlapMask where
  box : Option (ℚ × ℚ × ℚ × ℚ)
  points : List Pt
deriving DecidableEq, Repr

/-- The slice of `App.tsx` component state the two split handlers read
and write. -/
structure AppState where
  activeTool : Tool
  baseImage : Option ImageInfo
  hist : HistState
  selectedLayerId : Option String
  roiMode : RoiMode
  roiBox : Option (ℚ × ℚ × ℚ × ℚ)
  roiPoints : List Pt
  roiEngine : String
  roiParams : RParams
  roiFgPoint : Option Pt
  roiBgPoint : Option Pt
  roiPrompt : String
  isSplitting : Bool
  splitProgress : String
  overlapMaskA : OverlapMask
  overlapMaskB : OverlapMask
  overlapPromptA : String
  overlapPromptB : String
  overlapEngine : String
  overlapParams : RParams
  isOverlapSplitting : Bool
  overlapSplitProgress : String

/-- The fallible awaited collaborators of the handlers:
`rasterizeRoiMask`, `api.upload`, `api.roiSplit`, `api.overlapSplit`. -/
structure Env where
  rasterize : RoiMode → Option (ℚ × ℚ × ℚ × ℚ) → List Pt → ℚ → ℚ → Except String ℕ
  upload : ℕ → Except String ImageInfo
  roiSplit : RoiSplitReq → Except String SplitResponse
  overlapSplit : OverlapSplitReq → Except String SplitResponse

/-- Externally observable side effects of a handler run. -/
inductive Effect where
  | rasterizeMask
  | uploadMask
  | roiSplitCall
  | overlapSplitCall
deriving DecidableEq, Repr

/-- The layer objects built from a split response
(`data.layers.map((l, idx) => ({...}))` in both handlers, with
`z_index: layers.length + 1 + idx`). -/
def splitLayersToLayers (outs : List SplitLayerOut) (existing : ℕ) : List Layer :=
  outs.enum.map fun p =>
    { id := p.2.rgba_asset_id
      asset_id := p.2.rgba_asset_id
      asset_url := p.2.rgba_url
      name := some p.2.layer_name
      x := p.2.bbox.1
      y := p.2.bbox.2.1
      scale_x := 1
      scale_y := 1
      rotation_deg := 0
      opacity := 1
      visible := true
      locked := false
      z_index := (existing : ℚ) + 1 + (p.1 : ℚ)
      edge_cleanup_enabled := some false
      edge_cleanup_strength := some 50
      edge_cleanup_feather_px := some 1
      edge_cleanup_erode_px := some 1 }

/-- Handler `handleRoiSplit` from `App.tsx`: guard checks, then rasterize the
ROI mask, upload it, call `api.roiSplit`, and append the returned
layers through `updateLayers`; any thrown step lands in the `catch`
(alert only) and the `finally` resets the progress flags.  The second
component lists the effectful steps that were attempted. -/
def handleRoiSplit (env : Env) (st : AppState) : AppState × List Effect :=
  match st.baseImage with
  | none => (st, [])
  | some img =>
    if st.roiBox = none ∧ st.roiPoints.length < 3 then (st, [])
    else
      match env.rasterize st.roiMode st.roiBox st.roiPoints img.width img.height with
      | .error _ =>
        ({ st with isSplitting := false, splitProgress := "" }, [Effect.rasterizeMask])
      | .ok maskBlob =>
        match env.upload maskBlob with
        | .error _ =>
          ({ st with isSplitting := false, splitProgress := "" },
            [Effect.rasterizeMask, Effect.uploadMask])
        | .ok maskInfo =>
          let req : RoiSplitReq :=
            { base_image_id := img.image_id
              roi_mask_asset_id := maskInfo.image_id
              engine := st.roiEngine
              steps := st.roiParams.steps
              guidance_scale := st.roiParams.guidance_scale
              seed := st.roiParams.seed
              resize_long_edge := st.roiParams.resize_long_edge
              prompt := if st.roiPrompt = "" then none else some st.roiPrompt
              fg_point := st.roiFgPoint.map fun p => (p.x, p.y, 1)
              bg_point := st.roiBgPoint.map fun p => (p.x, p.y, 0) }
          match env.roiSplit req with
          | .error _ =>
            ({ st with isSplitting := false, splitProgress := "" },
              [Effect.rasterizeMask, Effect.uploadMask, Effect.roiSplitCall])
          | .ok data =>
            let newLayers := splitLayersToLayers data.layers st.hist.layers.length
            let updated := st.hist.layers ++ newLayers
            ({ st with
                hist := st.hist.updateLayers updated
                selectedLayerId := match newLayers.getLast? with
                  | some l => some l.id
                  | none => st.selectedLayerId
                roiBox := none
                roiPoints := []
                roiFgPoint := none
                roiBgPoint := none
                activeTool := Tool.select
                isSplitting := false
                splitProgress := "" },
              [Effect.rasterizeMask, Effect.uploadMask, Effect.roiSplitCall])

/-- C7: a `handleRoiSplit` invocation with no base image, or with no ROI
defined (`roiBox` null and fewer than 3 polygon points), is rejected
immediately: no upload, no `roi_split` API call (empty effect list),
and the state — in particular the layers list and the undo history —
is unchanged. -/
theorem roi_split_rejected (env : Env) (st : AppState)
    (h : st.baseImage = none ∨ (st.roiBox = none ∧ st.roiPoints.length < 3)) :
    handleRoiSplit env st = (st, []) := by
  match hb : st.baseImage with
  | none => simp [handleRoiSplit, hb]
  | some img =>
    rcases h with h | h
    · rw [hb] at h
      cases h
    · simp only [handleRoiSplit, hb]
      rw [if_pos h]

/-- Environment whose first awaited step throws. -/
def failEnv : Env :=
  { rasterize := fun _ _ _ _ _ => Except.error "boom"
    upload := fun _ => Except.error "boom"
    roiSplit := fun _ => Except.error "boom"
    overlapSplit := fun _ => Except.error "boom" }

/-- App state with neither a base image nor any ROI/overlap input. -/
def emptyAppState : AppState :=
  { activeTool := Tool.select
    baseImage := none
    hist := initHist []
    selectedLayerId := none
    roiMode := RoiMode.rect
    roiBox := none
    roiPoints := []
    roiEngine := "sdxl_inpaint"
    roiParams := { steps := 20, guidance_scale := 6, strength := 1 }
    roiFgPoint := none
    roiBgPoint := none
    roiPrompt := ""
    isSplitting := false
    splitProgress := ""
    overlapMaskA := ⟨none, []⟩
    overlapMaskB := ⟨none, []⟩
    overlapPromptA := ""
    overlapPromptB := ""
    overlapEngine := "sdxl_inpaint"
    overlapParams := { steps := 20, guidance_scale := 6, strength := 1 }
    isOverlapSplitting := false
    overlapSplitProgress := "" }

/-- C7, witness: with no base image loaded, `handleRoiSplit` returns the
state unchanged and performs no effect. -/
theorem roi_split_rejected_witness :
    handleRoiSplit failEnv emptyAppState = (emptyAppState, []) :=
  roi_split_rejected failEnv emptyAppState (Or.inl rfl)

/-- The chain of awaited steps inside the `try` block of
`handleOverlapSplit`: rasterize mask A and mask B (rect when the mask
has a box, poly otherwise),
upload both, then call `api.overlapSplit` with the assembled request. -/
def overlapSteps (env : Env) (img : ImageInfo) (st : AppState) :
    Except String SplitResponse := do
  let maskABlob ← env.rasterize
    (if st.overlapMaskA.box.isSome then RoiMode.rect else RoiMode.poly)
    st.overlapMaskA.box st.overlapMaskA.points img.width img.height
  let maskBBlob ← env.rasterize
    (if st.overlapMaskB.box.isSome then RoiMode.rect else RoiMode.poly)
    st.overlapMaskB.box st.overlapMaskB.points img.width img.height
  let infoA ← env.upload maskABlob
  let infoB ← env.upload maskBBlob
  env.overlapSplit
    { base_image_id := img.image_id
      mask_a_asset_id := infoA.image_id
      mask_b_asset_id := infoB.image_id
      prompt_a := st.overlapPromptA
      prompt_b := st.overlapPromptB
      engine := st.overlapEngine
      steps := st.overlapParams.steps
      guidance_scale := st.overlapParams.guidance_scale
      strength := st.overlapParams.strength }

/-- Handler `handleOverlapSplit` from `App.tsx`: guard that a base image is
loaded and both masks are defined, run the awaited steps, and on
success append the returned layers through `updateLayers`, select the
last new layer, and clear the overlap inputs; a thrown step lands in
the `catch` (alert only) and the `finally` resets the progress flags. -/
def handleOverlapSplit (env : Env) (st : AppState) : AppState :=
  match st.baseImage with
  | none => st
  | some img =>
    let hasMaskA := st.overlapMaskA.box.isSome || decide (3 ≤ st.overlapMaskA.points.length)
    let hasMaskB := st.overlapMaskB.box.isSome || decide (3 ≤ st.overlapMaskB.points.length)
    if hasMaskA && hasMaskB then
      match overlapSteps env img st with
      | .error _ => { st with isOverlapSplitting := false, overlapSplitProgress := "" }
      | .ok data =>
        let newLayers := splitLayersToLayers data.layers st.hist.layers.length
        let updated := st.hist.layers ++ newLayers
        { st with
            hist := st.hist.updateLayers updated
            selectedLayerId := match newLayers.getLast? with
              | some l => some l.id
              | none => st.selectedLayerId
            overlapMaskA := ⟨none, []⟩
            overlapMaskB := ⟨none, []⟩
            overlapPromptA := ""
            overlapPromptB := ""
            activeTool := Tool.select
            isOverlapSplitting := false
            overlapSplitProgress := "" }
    else st

/-- C4: if any awaited step of `handleOverlapSplit` throws (the step
chain evaluates to an error), the layers list, the undo history and the
selected-layer id after the handler equal their values before it; and
the layers list changes only when the overlap-split step chain — in
particular the `api.overlapSplit` call — succeeds. -/
theorem overlap_split_atomic (env : Env) (st : AppState) :
    (∀ img e, st.baseImage = some img → overlapSteps env img st = Except.error e →
      (handleOverlapSplit env st).hist = st.hist ∧
        (handleOverlapSplit env st).selectedLayerId = st.selectedLayerId) ∧
    ((handleOverlapSplit env st).hist.layers ≠ st.hist.layers →
      ∃ img data, st.baseImage = some img ∧ overlapSteps env img st = Except.ok data) := by
  match hb : st.baseImage with
  | none =>
    constructor
    · intro img e himg herr
      exact Option.noConfusion himg
    · intro hne
      exfalso
      apply hne
      simp [handleOverlapSplit, hb]
  | some img =>
    by_cases hguard : ((st.overlapMaskA.box.isSome
        || decide (3 ≤ st.overlapMaskA.points.length))
        && (st.overlapMaskB.box.isSome || decide (3 ≤ st.overlapMaskB.points.length))) = true
    · constructor
      · intro img2 e himg herr
        cases himg
        constructor <;> simp [handleOverlapSplit, hb, hguard, herr]
      · intro hne
        cases hres : overlapSteps env img st with
        | error e =>
          exfalso
          apply hne
          simp [handleOverlapSplit, hb, hguard, hres]
        | ok data =>
          exact ⟨img, data, rfl, hres⟩
    · constructor
      · intro img2 e himg herr
        cases himg
        constructor <;> simp [handleOverlapSplit, hb, hguard]
      · intro hne
        exfalso
        apply hne
        simp [handleOverlapSplit, hb, hguard]

/-- App state with a base image loaded and both overlap masks drawn. -/
def overlapReadyState : AppState :=
  { emptyAppState with
      baseImage := some ⟨"base", 640, 480, "u"⟩
      activeTool := Tool.overlap
      hist := initHist [mkLayer "old" 1 true]
      selectedLayerId := some "old"
      overlapMaskA := ⟨some (0, 0, 100, 100), []⟩
      overlapMaskB := ⟨some (50, 50, 150, 150), []⟩ }

/-- C4, witness: with both masks drawn and an environment whose mask
rasterization throws, the handler leaves the history and selection
untouched. -/
theorem overlap_split_atomic_witness :
    (handleOverlapSplit failEnv overlapReadyState).hist = overlapReadyState.hist ∧
      (handleOverlapSplit failEnv overlapReadyState).selectedLayerId
        = overlapReadyState.selectedLayerId :=
  (overlap_split_atomic failEnv overlapReadyState).1 ⟨"base", 640, 480, "u"⟩ "boom" rfl rfl

/-! ## Backend components modelled from the specification

The Python backend (`backend/`, `sam3/`) is not part of the source
tree; the definitions below follow the words of the specification for the
components the remaining claims concern. -/

/-- Modelled from the spec: the backend CoordinateTransform
(`SAM2Transforms` in `sam3/model/utils/sam1_utils.py`, not under the
source tree).  The spec mandates an aspect-preserving letterbox: resize
the longest side to a fixed model input edge (1024) and pad the rest
with a neutral value, so a point scales by `edge / max(width, height)`
on both axes, with the padding placed past the scaled content. -/
def modelInputEdge : ℚ := 1024

/-- Modelled from the spec: the letterbox scale factor of an image. -/
def letterboxScale (w h : ℚ) : ℚ := modelInputEdge / max w h

/-- Modelled from the spec: `toModelSpace(point, imageSize)`. -/
def toModelSpace (w h : ℚ) (p : Pt) : Pt :=
  ⟨p.x * letterboxScale w h, p.y * letterboxScale w h⟩

/-- Modelled from the spec: `toImageSpace(point, imageSize)`, the
inverse affine map. -/
def toImageSpace (w h : ℚ) (p : Pt) : Pt :=
  ⟨p.x / letterboxScale w h, p.y / letterboxScale w h⟩

/-- C1: for every point inside the bounds of an image of arbitrary
(positive) dimensions — square or strongly non-square — the round trip
`toImageSpace(toModelSpace(p))` agrees with `p` within 1 pixel on each
axis (the affine letterbox maps are exact inverses, so the error is 0). -/
theorem coordinate_roundtrip (w h : ℚ) (hw : 0 < w) (hh : 0 < h) (p : Pt)
    (hpx : 0 ≤ p.x ∧ p.x ≤ w) (hpy : 0 ≤ p.y ∧ p.y ≤ h) :
    |(toImageSpace w h (toModelSpace w h p)).x - p.x| ≤ 1 ∧
      |(toImageSpace w h (toModelSpace w h p)).y - p.y| ≤ 1 := by
  have hmax : (0 : ℚ) < max w h := lt_max_of_lt_left hw
  have hscale : letterboxScale w h ≠ 0 := by
    unfold letterboxScale modelInputEdge
    positivity
  have hx : (toImageSpace w h (toModelSpace w h p)).x = p.x := by
    simp only [toImageSpace, toModelSpace]
    exact mul_div_cancel_right₀ p.x hscale
  have hy : (toImageSpace w h (toModelSpace w h p)).y = p.y := by
    simp only [toImageSpace, toModelSpace]
    exact mul_div_cancel_right₀ p.y hscale
  rw [hx, hy]
  norm_num

/-- C1, witness: the strongly non-square 2000×400 image at the interior
point (1000, 200). -/
theorem coordinate_roundtrip_witness :
    |(toImageSpace 2000 400 (toModelSpace 2000 400 ⟨1000, 200⟩)).x - 1000| ≤ 1 ∧
      |(toImageSpace 2000 400 (toModelSpace 2000 400 ⟨1000, 200⟩)).y - 200| ≤ 1 :=
  coordinate_roundtrip 2000 400 (by norm_num) (by norm_num) ⟨1000, 200⟩
    (by norm_num) (by norm_num)

/-- Modelled from the spec: blending a generated image back into a base
image strictly inside the regenerate mask — pixels outside the mask are
taken bit-identically from the base (RestorationPipeline, not under the
source tree).  A raster is a function from coordinates to a byte value,
a mask a boolean predicate on coordinates. -/
def blendWithin (base gend : ℕ × ℕ → ℕ) (regen : ℕ × ℕ → Bool) : ℕ × ℕ → ℕ :=
  fun p => if regen p then gend p else base p

/-- Modelled from the spec: the overlap-split restoration runs two
dependent passes: pass one regenerates region A using the pixels of
region B
as fixed context — the regenerate mask is A minus B, never touching
region B — and region B is returned unmodified (cropped from the input
base).  `gen` is the opaque diffusion backend. -/
def overlapSplitRestore (base : ℕ × ℕ → ℕ) (maskA maskB : ℕ × ℕ → Bool)
    (gen : (ℕ × ℕ → ℕ) → (ℕ × ℕ → Bool) → (ℕ × ℕ → ℕ)) :
    (ℕ × ℕ → ℕ) × (ℕ × ℕ → ℕ) :=
  let regenA : ℕ × ℕ → Bool := fun p => maskA p && !(maskB p)
  (blendWithin base (gen base regenA) regenA, base)

/-- C2: after an overlap-split restoration, every pixel inside mask B of
the output — both the regenerated pass-A raster and the returned
region-B raster — is byte-identical to the corresponding pixel of the
input base image, for every base image, every pair of masks (even
overlapping ones) and every behaviour of the diffusion backend. -/
theorem overlap_split_protected_region (base : ℕ × ℕ → ℕ)
    (maskA maskB : ℕ × ℕ → Bool)
    (gen : (ℕ × ℕ → ℕ) → (ℕ × ℕ → Bool) → (ℕ × ℕ → ℕ))
    (p : ℕ × ℕ) (hB : maskB p = true) :
    (overlapSplitRestore base maskA maskB gen).1 p = base p ∧
      (overlapSplitRestore base maskA maskB gen).2 p = base p := by
  constructor
  · simp [overlapSplitRestore, blendWithin, hB]
  · rfl

/-- C2, witness: a concrete 2×2 base raster with overlapping rectangular
masks and a backend that paints everything 255; the overlapping pixel
(1, 1) lies in mask B and is returned unchanged. -/
theorem overlap_split_protected_region_witness :
    (overlapSplitRestore (fun p => p.1 + 10 * p.2)
        (fun p => p.1 ≤ 1) (fun p => 1 ≤ p.2)
        (fun _ _ => fun _ => 255)).1 (1, 1) = 11 ∧
      (overlapSplitRestore (fun p => p.1 + 10 * p.2)
        (fun p => p.1 ≤ 1) (fun p => 1 ≤ p.2)
        (fun _ _ => fun _ => 255)).2 (1, 1) = 11 :=
  overlap_split_protected_region (fun p => p.1 + 10 * p.2)
    (fun p => p.1 ≤ 1) (fun p => 1 ≤ p.2) (fun _ _ => fun _ => 255) (1, 1) (by decide)

/-- Modelled from the spec: a restoration request — base-region and
masks identified by content hashes, engine name, optional text prompt,
numeric params (RestorationPipeline, not under the source tree). -/
structure RestorationRequest where
  baseHash : ℕ
  masksHash : ℕ
  engine : String
  prompt : Option String
  params : RParams
deriving DecidableEq, Repr

/-- Modelled from the spec: the fingerprint cache key — identical
`(base_region content hash, masks content hash, engine, params)`. -/
structure Fingerprint where
  baseHash : ℕ
  masksHash : ℕ
  engine : String
  params : RParams
deriving DecidableEq, Repr

def fingerprint (r : RestorationRequest) : Fingerprint :=
  ⟨r.baseHash, r.masksHash, r.engine, r.params⟩

/-- Fingerprint-keyed memo of restoration payloads (ResultCache). -/
abbrev ResultCache : Type := List (Fingerprint × ℕ)

def cacheFind (c : ResultCache) (fp : Fingerprint) : Option ℕ :=
  match c with
  | [] => none
  | (k, v) :: rest => if k = fp then some v else cacheFind rest fp

/-- Outcome of one `restore()` call: the produced payload (an opaque
asset), the `cache_hit` flag, the cache afterwards, and how many times
the diffusion model was invoked during the call. -/
structure RestoreOutcome where
  result : ℕ
  cache_hit : Bool
  cache : ResultCache
  model_calls : ℕ
deriving DecidableEq, Repr

/-- Modelled from the spec: `restore(request)` checks ResultCache by
fingerprint first; on a hit it returns immediately with
`cache_hit=true` and no model invocation; on a miss it runs the
diffusion model once, stores the payload under the fingerprint, and
returns it with `cache_hit=false`. -/
def restore (cache : ResultCache) (model : RestorationRequest → ℕ)
    (req : RestorationRequest) : RestoreOutcome :=
  match cacheFind cache (fingerprint req) with
  | some payload => ⟨payload, true, cache, 0⟩
  | none => ⟨model req, false, (fingerprint req, model req) :: cache, 1⟩

/-- C3: for any two `restore()` calls with identical fingerprints (same
content hashes, engine and params), the second call returns the same
result as the first with `cache_hit = true` and invokes the diffusion
model zero times. -/
theorem restore_fingerprint_cached (cache : ResultCache)
    (model : RestorationRequest → ℕ) (req1 req2 : RestorationRequest)
    (hfp : fingerprint req1 = fingerprint req2) :
    (restore (restore cache model req1).cache model req2).result
        = (restore cache model req1).result ∧
      (restore (restore cache model req1).cache model req2).cache_hit = true ∧
      (restore (restore cache model req1).cache model req2).model_calls = 0 := by
  cases hfind : cacheFind cache (fingerprint req1) with
  | some payload =>
      have h1 : restore cache model req1 = ⟨payload, true, cache, 0⟩ := by
        rw [restore, hfind]
      rw [h1]
      have hfind2 : cacheFind cache (fingerprint req2) = some payload := by
        rw [← hfp]
        exact hfind
      rw [restore, hfind2]
      exact ⟨rfl, rfl, rfl⟩
  | none =>
      have h1 : restore cache model req1 =
          ⟨model req1, false, (fingerprint req1, model req1) :: cache, 1⟩ := by
        rw [restore, hfind]
      rw [h1]
      have hfind2 : cacheFind ((fingerprint req1, model req1) :: cache)
          (fingerprint req2) = some (model req1) := by
        rw [cacheFind, if_pos hfp]
      rw [restore, hfind2]
      exact ⟨rfl, rfl, rfl⟩

/-- C3, witness: a concrete request pair with equal fingerprints but
different prompts (the fingerprint ignores the prompt, per the cache
key of the spec); starting from an empty cache, the second call hits,
returns the payload of the first call, and invokes the model zero times. -/
theorem restore_fingerprint_cached_witness :
    (restore (restore [] (fun r => r.baseHash + 1)
        ⟨7, 9, "sdxl_inpaint", none, { steps := 20, guidance_scale := 6, strength := 1 }⟩).cache
        (fun r => r.baseHash + 1)
        ⟨7, 9, "sdxl_inpaint", some "p", { steps := 20, guidance_scale := 6, strength := 1 }⟩).cache_hit
        = true ∧
      (restore (restore [] (fun r => r.baseHash + 1)
        ⟨7, 9, "sdxl_inpaint", none, { steps := 20, guidance_scale := 6, strength := 1 }⟩).cache
        (fun r => r.baseHash + 1)
        ⟨7, 9, "sdxl_inpaint", some "p", { steps := 20, guidance_scale := 6, strength := 1 }⟩).model_calls
        = 0 := by
  have h := restore_fingerprint_cached [] (fun r => r.baseHash + 1)
    ⟨7, 9, "sdxl_inpaint", none, { steps := 20, guidance_scale := 6, strength := 1 }⟩
    ⟨7, 9, "sdxl_inpaint", some "p", { steps := 20, guidance_scale := 6, strength := 1 }⟩
    rfl
  exact ⟨h.2.1, h.2.2⟩
